import Mathlib

/-!
Verification of the TileHarvester tile downloader against its
natural-language specification.

The definitions below are shallow embeddings of the Python source:

* `TileHarvester.tile_to_quadkey`     — `src/providers/bing.py`, `tile_to_quadkey`
* string / URL machinery              — `src/providers/{osm,bing,custom}.py`
* downloader state and ledger         — `src/downloader/base.py`
* worker control flow                 — `src/downloader/base.py`, `_worker`
* tile math over the reals            — `src/tile_math.py`

Machine floats in the source are modelled over `ℝ`; Python's `set` of
processed tiles is modelled as a duplicate-free list used only through
membership, length and insertion.
-/

namespace TileHarvester

/-! ## Quadkey (src/providers/bing.py, `tile_to_quadkey`)

The Python loop `for i in range(zoom, 0, -1)` visits `i = zoom, …, 1` and
appends the digit for bit `i-1`.  `quadkeyGo x y i acc` performs the
iterations with loop counter `i+1, …, 1`, i.e. bit positions `i, …, 0`. -/

def quadkeyGo (x y : Nat) : Nat → String → String
  | 0, acc => acc
  | i + 1, acc =>
    quadkeyGo x y i
      (acc ++ toString ((if x &&& (1 <<< i) ≠ 0 then 1 else 0)
                      + (if y &&& (1 <<< i) ≠ 0 then 2 else 0)))

/-- `tile_to_quadkey(x, y, zoom)` from `src/providers/bing.py`: starts with
the empty string and appends one base-4 digit per zoom level, most
significant bit first. -/
def tile_to_quadkey (x y zoom : Nat) : String :=
  quadkeyGo x y zoom ""

/-! ## Python string primitives used by the providers

`hasSub` models Python's `pat in s` substring test, `strReplaceL` models
`s.replace(old, new)` (all occurrences, scanned left to right), and
`formatGo`/`formatField` model the part of `str.format(**kwargs)` exercised
by the fixed OSM/Bing templates: each `{name}` field is replaced by its
binding; an unknown field name or an unterminated field raises (here:
`none`).  The templates involved contain no `{{`/`}}` escapes. -/

def hasSubL (pat : List Char) : List Char → Bool
  | [] => pat.isEmpty
  | c :: rest => pat.isPrefixOf (c :: rest) || hasSubL pat rest

def hasSub (s pat : String) : Bool :=
  hasSubL pat.data s.data

def strReplaceGo (pat rep : List Char) : Nat → List Char → List Char
  | 0, l => l
  | fuel + 1, l =>
    match l with
    | [] => []
    | c :: rest =>
      if pat ≠ [] ∧ pat.isPrefixOf (c :: rest) then
        rep ++ strReplaceGo pat rep fuel ((c :: rest).drop pat.length)
      else
        c :: strReplaceGo pat rep fuel rest

def strReplace (s pat rep : String) : String :=
  ⟨strReplaceGo pat.data rep.data s.data.length s.data⟩

mutual

def formatGo (bind : List (String × String)) : List Char → Option (List Char)
  | [] => some []
  | c :: rest =>
    if c = '{' then formatField bind [] rest
    else (formatGo bind rest).map (c :: ·)

def formatField (bind : List (String × String)) (acc : List Char) :
    List Char → Option (List Char)
  | [] => none
  | c :: rest =>
    if c = '}' then
      match bind.lookup (⟨acc⟩ : String) with
      | some v => (formatGo bind rest).map (v.data ++ ·)
      | none => none
    else formatField bind (acc ++ [c]) rest

end

def pythonFormat (template : String) (bind : List (String × String)) :
    Option String :=
  (formatGo bind template.data).map (⟨·⟩)

/-! ## Providers (src/providers/{osm,bing,custom}.py)

The fixed OSM and Bing providers carry the constructor constants from
their `__init__`; the only partial operations in `get_tile_url` are the
subdomain indexing (`subdomains[(x+y) % len(subdomains)]`, which raises on
an empty list) and `str.format` (which raises on an unknown field), both
modelled with `Option`. -/

def osmSubdomains : List String := ["a", "b", "c"]

def osmUrlTemplate : String := "https://{s}.tile.openstreetmap.org/{z}/{x}/{y}.png"

/-- `OSMTileProvider.get_tile_url` from `src/providers/osm.py`. -/
def osmGetTileUrl (x y zoom : Nat) : Option String := do
  let s ← osmSubdomains[(x + y) % osmSubdomains.length]?
  pythonFormat osmUrlTemplate
    [("s", s), ("z", toString zoom), ("x", toString x), ("y", toString y)]

def bingSubdomains : List String := ["t0", "t1", "t2", "t3"]

def bingUrlTemplate : String :=
  "http://ecn.{s}.tiles.virtualearth.net/tiles/a{q}.jpeg?g=1"

/-- `BingTileProvider.get_tile_url` from `src/providers/bing.py`. -/
def bingGetTileUrl (x y zoom : Nat) : Option String := do
  let q := tile_to_quadkey x y zoom
  let s ← bingSubdomains[(x + y) % bingSubdomains.length]?
  pythonFormat bingUrlTemplate [("s", s), ("q", q)]

/-- `CustomTileProvider.get_tile_url` from `src/providers/custom.py`:
a chain of `str.replace` calls for `{q}`, `{z}`, `{x}`, `{y}`, and a
guarded subdomain substitution for `{s}` performed only when `{s}` occurs
and the subdomain list is non-empty. -/
def customGetTileUrl (template : String) (subdomains : List String)
    (x y zoom : Nat) : Option String :=
  let url := template
  let url := if hasSub url "{q}" then strReplace url "{q}" (tile_to_quadkey x y zoom) else url
  let url := strReplace url "{z}" (toString zoom)
  let url := strReplace url "{x}" (toString x)
  let url := strReplace url "{y}" (toString y)
  if hasSub url "{s}" ∧ subdomains ≠ [] then
    (subdomains[(x + y) % subdomains.length]?).map (fun s => strReplace url "{s}" s)
  else
    some url

/-- `OSMTileProvider.get_tile_path`: `base/osm/z/x/y.ext` with the
extension `"png"` extracted from the OSM template. -/
def osmGetTilePath (x y zoom : Nat) (base : String) : String :=
  base ++ "/osm/" ++ toString zoom ++ "/" ++ toString x ++ "/" ++ toString y ++ ".png"

/-- `BingTileProvider.get_tile_path`: `base/bing/z/x/y.ext` with the
extension `"jpg"` (the template's `jpeg` normalised by
`_extract_extension`). -/
def bingGetTilePath (x y zoom : Nat) (base : String) : String :=
  base ++ "/bing/" ++ toString zoom ++ "/" ++ toString x ++ "/" ++ toString y ++ ".jpg"

/-- `CustomTileProvider.get_tile_path`: `base/z/x/y.ext`, flipping `y` to
`2^z - 1 - y` when the provider is marked TMS. -/
def customGetTilePath (isTms : Bool) (ext : String) (x y : Int) (zoom : Nat)
    (base : String) : String :=
  let yOut : Int := if isTms then (2 ^ zoom - 1 : Int) - y else y
  base ++ "/" ++ toString zoom ++ "/" ++ toString x ++ "/" ++ toString yOut ++ "." ++ ext

theorem osmGetTileUrl_isSome (x y zoom : Nat) : (osmGetTileUrl x y zoom).isSome := by
  unfold osmGetTileUrl
  have hl : osmSubdomains.length = 3 := rfl
  rw [hl]
  have h3 : (x + y) % 3 = 0 ∨ (x + y) % 3 = 1 ∨ (x + y) % 3 = 2 := by omega
  rcases h3 with h | h | h <;> rw [h] <;> rfl

theorem bingGetTileUrl_isSome (x y zoom : Nat) : (bingGetTileUrl x y zoom).isSome := by
  unfold bingGetTileUrl
  have hl : bingSubdomains.length = 4 := rfl
  rw [hl]
  have h4 : (x + y) % 4 = 0 ∨ (x + y) % 4 = 1 ∨ (x + y) % 4 = 2 ∨ (x + y) % 4 = 3 := by
    omega
  rcases h4 with h | h | h | h <;> rw [h] <;> rfl

theorem customUrlSubdomainStep_isSome (url : String) (subs : List String)
    (x y : Nat) :
    (if hasSub url "{s}" ∧ subs ≠ [] then
        (subs[(x + y) % subs.length]?).map (fun s => strReplace url "{s}" s)
      else some url).isSome := by
  split
  next h =>
    have hlt : (x + y) % subs.length < subs.length :=
      Nat.mod_lt _ (List.length_pos.mpr h.2)
    simp [List.getElem?_eq_getElem hlt]
  next => simp

theorem customGetTileUrl_isSome (template : String) (subs : List String)
    (x y zoom : Nat) : (customGetTileUrl template subs x y zoom).isSome := by
  simp only [customGetTileUrl]
  exact customUrlSubdomainStep_isSome _ subs x y

/-! ## Downloader state (src/downloader/base.py)

`DLState` carries the fields of `TileDownloader` that the claims are
about.  The Python `set` `processed_tiles` is modelled as a list used only
through membership, length and insertion; statuses are the literal Python
strings `"success"`, `"failed"`, `"skipped"`. -/

structure Tile where
  x : Int
  y : Int
  z : Nat
  deriving DecidableEq

structure DLState where
  processedTiles : List Tile
  downloadedCount : Nat
  failedCount : Nat
  skippedCount : Nat
  totalTasks : Nat
  taskQueue : List Tile
  deriving DecidableEq

/-- The counter update shared by both branches of `_mark_tile_processed`
(`if status == 'success': … elif status == 'failed': … elif 'skipped'`). -/
def bumpCounter (s : DLState) (status : String) : DLState :=
  if status = "success" then { s with downloadedCount := s.downloadedCount + 1 }
  else if status = "failed" then { s with failedCount := s.failedCount + 1 }
  else if status = "skipped" then { s with skippedCount := s.skippedCount + 1 }
  else s

/-- `_mark_tile_processed(x, y, z, status)` from `src/downloader/base.py`
(lines 755-795): a tile not yet in `processed_tiles` is added and counted,
unless the in-memory set has reached the `max_tiles_in_memory = 1000000`
cap, in which case only the counter is updated; a tile already in the set
increments only the skip counter, and only for status `'skipped'`. -/
def markTileProcessed (s : DLState) (t : Tile) (status : String) : DLState :=
  if t ∉ s.processedTiles then
    if 1000000 ≤ s.processedTiles.length then
      bumpCounter s status
    else
      bumpCounter { s with processedTiles := t :: s.processedTiles } status
  else
    if status = "skipped" then { s with skippedCount := s.skippedCount + 1 }
    else s

/-- One iteration of the tile loop of `add_tasks_for_bbox`
(lines 919-937): with resume enabled, a tile already in
`processed_tiles` only increments `skipped_count`; otherwise it is put on
the task queue.  `total_tasks` is not touched here. -/
def enumStep (enableResume : Bool) (s : DLState) (t : Tile) : DLState :=
  if enableResume ∧ t ∈ s.processedTiles then
    { s with skippedCount := s.skippedCount + 1 }
  else
    { s with taskQueue := s.taskQueue ++ [t] }

/-- `add_tasks_for_bbox` (lines 825-963), restricted to the per-tile work:
the caller has already loaded `processed_tiles` from the ledger into the
state; the enumerated tiles of all requested zooms are processed in
order, and only after the loop is `total_tasks` assigned the full
enumeration count (line 961). -/
def addTasksForBbox (enableResume : Bool) (s : DLState) (tiles : List Tile) :
    DLState :=
  let s' := tiles.foldl (enumStep enableResume) s
  { s' with totalTasks := tiles.length }

/-- The rows committed to the `processed_tiles` ledger table by
`_save_progress` (lines 453-499): `tile_generator` yields
`(tile[0], tile[1], tile[2], 'success', ts)` for every member of the
in-memory `processed_tiles` set — the stored status is the literal
`'success'` regardless of how the tile was marked — and the rows are
written with `INSERT OR IGNORE`.  Timestamps are omitted here. -/
def saveProgressRows (s : DLState) : List (Int × Int × Nat × String) :=
  s.processedTiles.map (fun t => (t.x, t.y, t.z, "success"))

/-- A fresh downloader state: counters and `total_tasks` start at zero
(`__init__`, lines 119-123); `processedTiles` holds whatever
`_load_processed_tiles_for_zoom_range` returned. -/
def initState (loaded : List Tile) : DLState :=
  { processedTiles := loaded, downloadedCount := 0, failedCount := 0,
    skippedCount := 0, totalTasks := 0, taskQueue := [] }

/-- The statistic reported by `get_statistics` as `downloaded + failed +
skipped` (`processed`, line 1498). -/
def processedSum (s : DLState) : Nat :=
  s.downloadedCount + s.failedCount + s.skippedCount

/-- A worker marking each of a sequence of dequeued tasks once, in order. -/
def applyMarks (s : DLState) (marks : List (Tile × String)) : DLState :=
  marks.foldl (fun s m => markTileProcessed s m.1 m.2) s

theorem bumpCounter_totalTasks (s : DLState) (st : String) :
    (bumpCounter s st).totalTasks = s.totalTasks := by
  unfold bumpCounter
  repeat' split
  all_goals rfl

theorem bumpCounter_sum_le (s : DLState) (st : String) :
    processedSum (bumpCounter s st) ≤ processedSum s + 1 := by
  unfold bumpCounter processedSum
  repeat' split
  all_goals try dsimp only
  all_goals omega

theorem bumpCounter_processedTiles (s : DLState) (st : String) :
    (bumpCounter s st).processedTiles = s.processedTiles := by
  unfold bumpCounter
  repeat' split
  all_goals rfl

theorem markTileProcessed_totalTasks (s : DLState) (t : Tile) (st : String) :
    (markTileProcessed s t st).totalTasks = s.totalTasks := by
  unfold markTileProcessed
  repeat' split
  · exact bumpCounter_totalTasks ..
  · exact bumpCounter_totalTasks ..
  · rfl
  · rfl

theorem markTileProcessed_sum_le (s : DLState) (t : Tile) (st : String) :
    processedSum (markTileProcessed s t st) ≤ processedSum s + 1 := by
  unfold markTileProcessed
  repeat' split
  · exact bumpCounter_sum_le ..
  · refine (bumpCounter_sum_le ..).trans ?_
    simp [processedSum]
  · simp only [processedSum]
    try dsimp only
    omega
  · simp [processedSum]

theorem applyMarks_totalTasks (marks : List (Tile × String)) (s : DLState) :
    (applyMarks s marks).totalTasks = s.totalTasks := by
  induction marks generalizing s with
  | nil => rfl
  | cons m ms ih =>
    simpa [applyMarks, markTileProcessed_totalTasks] using
      (ih (markTileProcessed s m.1 m.2)).trans (markTileProcessed_totalTasks ..)

theorem applyMarks_sum_le (marks : List (Tile × String)) (s : DLState) :
    processedSum (applyMarks s marks) ≤ processedSum s + marks.length := by
  induction marks generalizing s with
  | nil => simp [applyMarks]
  | cons m ms ih =>
    calc processedSum (applyMarks (markTileProcessed s m.1 m.2) ms)
        ≤ processedSum (markTileProcessed s m.1 m.2) + ms.length := ih _
      _ ≤ processedSum s + 1 + ms.length :=
          Nat.add_le_add_right (markTileProcessed_sum_le ..) _
      _ = processedSum s + (m :: ms).length := by simp; omega

/-- Bookkeeping of the enumeration loop: every enumerated tile either
increments `skipped_count` or lengthens the task queue, and `total_tasks`
is untouched. -/
theorem foldl_enumStep_sum (r : Bool) (tiles : List Tile) (s : DLState) :
    processedSum (tiles.foldl (enumStep r) s) +
        (tiles.foldl (enumStep r) s).taskQueue.length
      = processedSum s + s.taskQueue.length + tiles.length
    ∧ (tiles.foldl (enumStep r) s).totalTasks = s.totalTasks := by
  induction tiles generalizing s with
  | nil => simp
  | cons t ts ih =>
    have step1 : processedSum (enumStep r s t) + (enumStep r s t).taskQueue.length
        = processedSum s + s.taskQueue.length + 1 := by
      unfold enumStep
      split <;> simp [processedSum] <;> omega
    have step2 : (enumStep r s t).totalTasks = s.totalTasks := by
      unfold enumStep
      split <;> rfl
    obtain ⟨ih1, ih2⟩ := ih (enumStep r s t)
    have hlen : (t :: ts).length = ts.length + 1 := rfl
    constructor
    · rw [List.foldl_cons]
      omega
    · rw [List.foldl_cons, ih2, step2]

/-- A duplicate-free list of marks over members of a queue is no longer
than the queue. -/
theorem marks_length_le_queue (marks : List (Tile × String)) (queue : List Tile)
    (hmem : ∀ p ∈ marks, p.1 ∈ queue) (hnd : (marks.map Prod.fst).Nodup) :
    marks.length ≤ queue.length := by
  have h1 : (marks.map Prod.fst).toFinset.card = marks.length := by
    rw [List.toFinset_card_of_nodup hnd, List.length_map]
  have h2 : (marks.map Prod.fst).toFinset ⊆ queue.toFinset := by
    intro a ha
    rw [List.mem_toFinset] at ha ⊢
    obtain ⟨p, hp, rfl⟩ := List.mem_map.mp ha
    exact hmem p hp
  calc marks.length = (marks.map Prod.fst).toFinset.card := h1.symm
    _ ≤ queue.toFinset.card := Finset.card_le_card h2
    _ ≤ queue.length := queue.toFinset_card_le

/-! ## Worker control flow (src/downloader/base.py, `_worker`, lines 1010-1437)

The per-task part of `_worker` — from the moment a task `(x, y, z)` has
been pulled off the queue to its final disposition — is embedded as a
pure function over an environment of oracle reads.  Each Boolean field
of `WorkerEnv` is the value the worker observes when it reads the stop or
pause flag at the corresponding source location (the flags are shared
mutable state, so each read is an independent observation; the two
back-to-back stop reads at lines 1190/1199 after a mid-chunk pause are
merged into `stopAfterChunkPause`).  `net` is the HTTP outcome of each
attempt.  Sink writes (MBTiles insert / file write) are recorded as
actions and assumed to succeed; their sqlite-lock retry loops are out of
scope of the claims. -/

/-- Outcome of `session.get` for one attempt: an exception
(`requests.exceptions.*`, line 1326-1343) or a response with status,
`Content-Type` and the body chunks that `iter_content(8192)` yields. -/
inductive AttemptNet
  | netError
  | response (status : Nat) (contentType : String) (chunks : List (List Nat))

structure WorkerEnv where
  /-- `self.retries`, bound of `for attempt in range(self.retries)` (line 1118). -/
  retries : Nat
  minZoom : Nat
  maxZoom : Nat
  isMbtiles : Bool
  /-- `file_path.exists()` for the filesystem sink (line 1099). -/
  fileExists : Bool
  /-- pause observed at the post-dequeue re-check (line 1064). -/
  pausedAtRecheck : Bool
  /-- stop observed at the start of an attempt (line 1120). -/
  stopAtAttemptStart : Nat → Bool
  /-- pause observed at the start of an attempt (line 1125). -/
  pausedAtAttemptStart : Nat → Bool
  /-- still paused after the 1-second grace wait (line 1130). -/
  pausedAfterGrace : Nat → Bool
  net : Nat → AttemptNet
  /-- stop observed before reading chunk `j` of attempt `a` (line 1173). -/
  stopAtChunk : Nat → Nat → Bool
  /-- pause observed before reading chunk `j` of attempt `a` (line 1179). -/
  pausedAtChunk : Nat → Nat → Bool
  /-- stop observed after the post-pause wait / at line 1199. -/
  stopAfterChunkPause : Nat → Nat → Bool
  /-- stop observed after a completed body (line 1199). -/
  stopAfterBody : Nat → Bool
  /-- stop observed right after the exception handlers (line 1346). -/
  stopAfterExcept : Nat → Bool
  /-- pause observed during the retry-backoff wait loop (line 1362). -/
  pausedDuringBackoff : Nat → Bool

/-- Observable steps of the worker on one task: an HTTP GET issued, the
task put back on the queue (`task_queue.put((x, y, z))`), a sink write,
or a call of `_mark_tile_processed` with the given status. -/
inductive Action
  | httpGet
  | requeue
  | sinkPut (zoomLevel : Nat) (tileColumn tileRow : Int) (data : List Nat)
  | fsWrite (data : List Nat)
  | mark (status : String)
  deriving DecidableEq

/-- The content-type validation of line 1162:
`'image' in content_type or 'jpeg' in content_type or 'png' in content_type`. -/
def contentTypeOk (ct : String) : Bool :=
  hasSub ct "image" || hasSub ct "jpeg" || hasSub ct "png"

/-- Result of the chunk-streaming loop (lines 1171-1196): interrupted by
stop (`ok = False; break`, later marked failed), by a pause followed by a
stop after resume (`return`, task already re-enqueued), by a pause
followed by resume (task re-enqueued, loop broken with the partial body
accumulated so far), or completed. -/
inductive ChunkRes
  | stopBreak
  | pauseReturn
  | pauseBreak (acc : List Nat)
  | complete (acc : List Nat)

def runChunks (env : WorkerEnv) (a : Nat) :
    List (List Nat) → Nat → List Nat → ChunkRes
  | [], _, acc => .complete acc
  | c :: rest, j, acc =>
    if env.stopAtChunk a j then .stopBreak
    else if env.pausedAtChunk a j then
      if env.stopAfterChunkPause a j then .pauseReturn else .pauseBreak acc
    else runChunks env a rest (j + 1) (acc ++ c)

/-- The sink write of a successful download (lines 1212-1295): in MBTiles
mode an `INSERT OR REPLACE` of `(z, x, (2 ** z) - 1 - y, tile_data)`
(line 1216: `mbtiles_row = (2 ** z) - 1 - y`), identical in the single-file
and zoom-sharded branches; in directory mode a file write. -/
def saveActions (env : WorkerEnv) (t : Tile) (data : List Nat) : List Action :=
  if env.isMbtiles then
    [.sinkPut t.z t.x ((2 ^ t.z : Int) - 1 - t.y) data]
  else
    [.fsWrite data]

/-- The retry loop `for attempt in range(self.retries)` (lines 1118-1381),
with `fuel` the number of attempts left and `a` the attempt index.  The
branches follow the source: stop at attempt start breaks out and the
`if not ok` epilogue marks the tile failed (line 1380); a pause that
persists past the 1-second grace marks the tile skipped and returns
(lines 1130-1140); HTTP 403/404 break with no further attempt; other
non-200 statuses, bad content types and empty bodies `continue` to the
next attempt (skipping the backoff, which only runs after exceptions);
a pause during a chunk re-enqueues the task, and if any bytes were
already read the partial body falls through to the save path and is
marked success; an exception leads to the backoff wait, during which an
observed pause re-enqueues the task and returns. -/
def runAttempts (env : WorkerEnv) (t : Tile) : Nat → Nat → List Action
  | 0, _ => [.mark "failed"]
  | fuel + 1, a =>
    if env.stopAtAttemptStart a then [.mark "failed"]
    else if env.pausedAtAttemptStart a ∧ env.pausedAfterGrace a then [.mark "skipped"]
    else
      match env.net a with
      | .netError =>
        if env.stopAfterExcept a then [.httpGet, .mark "failed"]
        else if env.pausedDuringBackoff a then [.httpGet, .requeue]
        else .httpGet :: runAttempts env t fuel (a + 1)
      | .response status ct chunks =>
        if status ≠ 200 then
          if status = 403 ∨ status = 404 then [.httpGet, .mark "failed"]
          else .httpGet :: runAttempts env t fuel (a + 1)
        else if ¬ contentTypeOk ct then .httpGet :: runAttempts env t fuel (a + 1)
        else
          match runChunks env a chunks 0 [] with
          | .stopBreak => [.httpGet, .mark "failed"]
          | .pauseReturn => [.httpGet, .requeue]
          | .pauseBreak acc =>
            if acc.length = 0 then .httpGet :: .requeue :: runAttempts env t fuel (a + 1)
            else [.httpGet, .requeue] ++ saveActions env t acc ++ [.mark "success"]
          | .complete acc =>
            if env.stopAfterBody a then [.httpGet, .mark "failed"]
            else if acc.length = 0 then .httpGet :: runAttempts env t fuel (a + 1)
            else .httpGet :: (saveActions env t acc ++ [.mark "success"])

/-- One dequeued task, from the post-dequeue pause re-check (line 1064)
through the zoom-range check (line 1080), the filesystem existence check
(line 1099, directory mode only), to the retry loop. -/
def processTask (env : WorkerEnv) (t : Tile) : List Action :=
  if env.pausedAtRecheck then [.requeue]
  else if ¬ (env.minZoom ≤ t.z ∧ t.z ≤ env.maxZoom) then [.mark "skipped"]
  else if ¬ env.isMbtiles ∧ env.fileExists then [.mark "skipped"]
  else runAttempts env t env.retries 0

/-- Replay the marks of one task's trace into the downloader state. -/
def runTask (env : WorkerEnv) (s : DLState) (t : Tile) : DLState :=
  (processTask env t).foldl
    (fun s a =>
      match a with
      | .mark st => markTileProcessed s t st
      | _ => s) s

def runQueue (env : WorkerEnv) (s : DLState) (queue : List Tile) : DLState :=
  queue.foldl (runTask env) s

/-- A run against a server answering HTTP 404 for every URL, with the
default `retries = 3`, a directory sink with no pre-existing files, and
no pause or stop events. -/
def env404 (mz Mz : Nat) : WorkerEnv :=
  { retries := 3, minZoom := mz, maxZoom := Mz, isMbtiles := false,
    fileExists := false, pausedAtRecheck := false,
    stopAtAttemptStart := fun _ => false,
    pausedAtAttemptStart := fun _ => false,
    pausedAfterGrace := fun _ => false,
    net := fun _ => .response 404 "" [],
    stopAtChunk := fun _ _ => false,
    pausedAtChunk := fun _ _ => false,
    stopAfterChunkPause := fun _ _ => false,
    stopAfterBody := fun _ => false,
    stopAfterExcept := fun _ => false,
    pausedDuringBackoff := fun _ => false }

/-- A worker whose first download attempt observes a pause that persists
past the 1-second grace wait (lines 1125-1140). -/
def envPauseGrace : WorkerEnv :=
  { retries := 3, minZoom := 0, maxZoom := 19, isMbtiles := false,
    fileExists := false, pausedAtRecheck := false,
    stopAtAttemptStart := fun _ => false,
    pausedAtAttemptStart := fun _ => true,
    pausedAfterGrace := fun _ => true,
    net := fun _ => .response 200 "image/png" [[7]],
    stopAtChunk := fun _ _ => false,
    pausedAtChunk := fun _ _ => false,
    stopAfterChunkPause := fun _ _ => false,
    stopAfterBody := fun _ => false,
    stopAfterExcept := fun _ => false,
    pausedDuringBackoff := fun _ => false }

/-- A clean MBTiles download: HTTP 200, an image content type, one body
chunk, no pause or stop events. -/
def env200 : WorkerEnv :=
  { retries := 3, minZoom := 0, maxZoom := 19, isMbtiles := true,
    fileExists := false, pausedAtRecheck := false,
    stopAtAttemptStart := fun _ => false,
    pausedAtAttemptStart := fun _ => false,
    pausedAfterGrace := fun _ => false,
    net := fun _ => .response 200 "image/png" [[7]],
    stopAtChunk := fun _ _ => false,
    pausedAtChunk := fun _ _ => false,
    stopAfterChunkPause := fun _ _ => false,
    stopAfterBody := fun _ => false,
    stopAfterExcept := fun _ => false,
    pausedDuringBackoff := fun _ => false }

/-- Every terminal of the retry loop either marks the tile or has already
re-enqueued it. -/
theorem runAttempts_mark_or_requeue (env : WorkerEnv) (t : Tile) :
    ∀ fuel a, (∃ st, Action.mark st ∈ runAttempts env t fuel a)
      ∨ Action.requeue ∈ runAttempts env t fuel a := by
  intro fuel
  induction fuel with
  | zero =>
    intro a
    exact .inl ⟨"failed", by simp [runAttempts]⟩
  | succ fuel ih =>
    intro a
    simp only [runAttempts]
    split
    · exact .inl ⟨"failed", by simp⟩
    split
    · exact .inl ⟨"skipped", by simp⟩
    split
    · -- netError
      split
      · exact .inl ⟨"failed", by simp⟩
      split
      · exact .inr (by simp)
      · rcases ih (a + 1) with ⟨st, h⟩ | h
        · exact .inl ⟨st, by simp [h]⟩
        · exact .inr (by simp [h])
    · -- response
      split
      · split
        · exact .inl ⟨"failed", by simp⟩
        · rcases ih (a + 1) with ⟨st, h⟩ | h
          · exact .inl ⟨st, by simp [h]⟩
          · exact .inr (by simp [h])
      split
      · rcases ih (a + 1) with ⟨st, h⟩ | h
        · exact .inl ⟨st, by simp [h]⟩
        · exact .inr (by simp [h])
      · split
        · exact .inl ⟨"failed", by simp⟩
        · exact .inr (by simp)
        · split
          · rcases ih (a + 1) with ⟨st, h⟩ | h
            · exact .inl ⟨st, by simp [h]⟩
            · exact .inr (by simp [h])
          · exact .inr (by simp)
        · split
          · exact .inl ⟨"failed", by simp⟩
          split
          · rcases ih (a + 1) with ⟨st, h⟩ | h
            · exact .inl ⟨st, by simp [h]⟩
            · exact .inr (by simp [h])
          · exact .inl ⟨"success", by simp⟩

/-- Against the all-404 server a task whose zoom is in the provider range
is fetched once and marked failed with no retry. -/
theorem processTask_env404 (mz Mz : Nat) (t : Tile)
    (hz : mz ≤ t.z ∧ t.z ≤ Mz) :
    processTask (env404 mz Mz) t = [Action.httpGet, Action.mark "failed"] := by
  simp [processTask, env404, runAttempts, hz.1, hz.2]

/-- Marking a fresh tile `'failed'` increments exactly the failed counter
and at most conses the tile onto the in-memory set. -/
theorem markTileProcessed_failed_fresh (s : DLState) (t : Tile)
    (h : t ∉ s.processedTiles) :
    markTileProcessed s t "failed"
      = if 1000000 ≤ s.processedTiles.length
        then { s with failedCount := s.failedCount + 1 }
        else { s with processedTiles := t :: s.processedTiles,
                      failedCount := s.failedCount + 1 } := by
  unfold markTileProcessed bumpCounter
  rw [if_pos h]
  split <;> simp

theorem runQueue_env404 (mz Mz : Nat) (queue : List Tile) :
    ∀ s : DLState, queue.Nodup →
      (∀ t ∈ queue, (mz ≤ t.z ∧ t.z ≤ Mz) ∧ t ∉ s.processedTiles) →
      (runQueue (env404 mz Mz) s queue).failedCount = s.failedCount + queue.length
      ∧ (runQueue (env404 mz Mz) s queue).downloadedCount = s.downloadedCount
      ∧ (runQueue (env404 mz Mz) s queue).skippedCount = s.skippedCount
      ∧ (runQueue (env404 mz Mz) s queue).totalTasks = s.totalTasks := by
  induction queue with
  | nil =>
    intro s _ _
    simp [runQueue]
  | cons t ts ih =>
    intro s hnd hall
    have hz := (hall t (List.mem_cons_self ..)).1
    have hfresh := (hall t (List.mem_cons_self ..)).2
    have hstep : runTask (env404 mz Mz) s t = markTileProcessed s t "failed" := by
      unfold runTask
      rw [processTask_env404 mz Mz t hz]
      rfl
    have hmark := markTileProcessed_failed_fresh s t hfresh
    have hall' : ∀ u ∈ ts,
        (mz ≤ u.z ∧ u.z ≤ Mz) ∧ u ∉ (markTileProcessed s t "failed").processedTiles := by
      intro u hu
      refine ⟨(hall u (List.mem_cons_of_mem _ hu)).1, ?_⟩
      have hne : u ≠ t := by
        intro e
        exact (List.nodup_cons.mp hnd).1 (e ▸ hu)
      have hnotmem : u ∉ s.processedTiles := (hall u (List.mem_cons_of_mem _ hu)).2
      rw [hmark]
      split
      · exact hnotmem
      · simp only [List.mem_cons]
        rintro (e | e)
        · exact hne e
        · exact hnotmem e
    have hrec := ih (markTileProcessed s t "failed") (List.nodup_cons.mp hnd).2 hall'
    have hq : runQueue (env404 mz Mz) s (t :: ts)
        = runQueue (env404 mz Mz) (markTileProcessed s t "failed") ts := by
      unfold runQueue
      rw [List.foldl_cons, hstep]
    have hcounts : (markTileProcessed s t "failed").failedCount = s.failedCount + 1
        ∧ (markTileProcessed s t "failed").downloadedCount = s.downloadedCount
        ∧ (markTileProcessed s t "failed").skippedCount = s.skippedCount
        ∧ (markTileProcessed s t "failed").totalTasks = s.totalTasks := by
      rw [hmark]
      split <;> simp
    rw [hq]
    refine ⟨?_, ?_, ?_, ?_⟩
    · rw [hrec.1, hcounts.1]
      simp [List.length_cons]
      omega
    · rw [hrec.2.1, hcounts.2.1]
    · rw [hrec.2.2.1, hcounts.2.2.1]
    · rw [hrec.2.2.2, hcounts.2.2.2]

/-- Python's `str.lower()` restricted to its ASCII behaviour (the scheme
strings involved are ASCII). -/
def pyLower (s : String) : String :=
  ⟨s.data.map Char.toLower⟩

/-- `self.scheme = scheme.lower()` from `TileDownloader.__init__`
(line 70): the user's scheme string is lowercased before any use. -/
def initSchemeField (scheme : String) : String :=
  pyLower scheme

/-- The metadata rows seeded by `_init_mbtiles` (lines 302-310); the
zoom-sharded `_get_mbtiles_connection` (lines 1584-1591) seeds the same
`scheme` row.  Both store `self.scheme`, i.e. the lowercased user
string. -/
def mbtilesMetadata (ext scheme : String) : List (String × String) :=
  [("name", "TileHarvester"), ("type", "baselayer"), ("version", "1.0"),
   ("description", "Generated by TileHarvester"), ("format", ext),
   ("scheme", initSchemeField scheme)]

/-- Any MBTiles row the retry loop writes carries
`(zoom_level, tile_column, tile_row) = (z, x, 2^z - 1 - y)`; the scheme
setting is not consulted anywhere in the write path. -/
theorem sinkPut_mem_runAttempts (env : WorkerEnv) (t : Tile)
    (zl : Nat) (tc tr : Int) (d : List Nat) :
    ∀ fuel a, Action.sinkPut zl tc tr d ∈ runAttempts env t fuel a →
      zl = t.z ∧ tc = t.x ∧ tr = (2 ^ t.z : Int) - 1 - t.y := by
  intro fuel
  induction fuel with
  | zero =>
    intro a h
    simp [runAttempts] at h
  | succ fuel ih =>
    intro a h
    simp only [runAttempts] at h
    split at h
    · simp at h
    split at h
    · simp at h
    split at h
    · -- netError
      split at h
      · simp at h
      split at h
      · simp at h
      · rcases List.mem_cons.mp h with h | h
        · simp at h
        · exact ih (a + 1) h
    · -- response
      split at h
      · split at h
        · simp at h
        · rcases List.mem_cons.mp h with h | h
          · simp at h
          · exact ih (a + 1) h
      split at h
      · rcases List.mem_cons.mp h with h | h
        · simp at h
        · exact ih (a + 1) h
      · split at h
        · simp at h
        · simp at h
        · -- pauseBreak
          split at h
          · rcases List.mem_cons.mp h with h | h
            · simp at h
            rcases List.mem_cons.mp h with h | h
            · simp at h
            · exact ih (a + 1) h
          · simp only [saveActions] at h
            split at h
            · simp at h
              exact ⟨h.1, h.2.1, h.2.2.1⟩
            · simp at h
        · -- complete
          split at h
          · simp at h
          split at h
          · rcases List.mem_cons.mp h with h | h
            · simp at h
            · exact ih (a + 1) h
          · simp only [saveActions] at h
            split at h
            · simp at h
              exact ⟨h.1, h.2.1, h.2.2.1⟩
            · simp at h

/-- On a fresh run (`processed_tiles` empty) the enumeration enqueues
every tile and finishes with `total_tasks` equal to the enumeration
count. -/
theorem addTasksForBbox_fresh (tiles : List Tile) :
    addTasksForBbox true (initState []) tiles
      = { processedTiles := [], downloadedCount := 0, failedCount := 0,
          skippedCount := 0, totalTasks := tiles.length, taskQueue := tiles } := by
  have key : ∀ (ts : List Tile) (s : DLState), s.processedTiles = [] →
      ts.foldl (enumStep true) s = { s with taskQueue := s.taskQueue ++ ts } := by
    intro ts
    induction ts with
    | nil =>
      intro s _
      simp
    | cons t ts ih =>
      intro s h
      rw [List.foldl_cons]
      have hstep : enumStep true s t = { s with taskQueue := s.taskQueue ++ [t] } := by
        unfold enumStep
        rw [if_neg]
        rw [h]
        simp
      rw [hstep, ih _ (by rw [← h])]
      simp
  unfold addTasksForBbox
  rw [key tiles (initState []) rfl]
  simp [initState]

/-! ## Tile math (src/tile_math.py)

`latlon_to_tile` and `calculate_tiles_in_bbox` are embedded over `ℝ`
(the source computes with doubles; the `1e-10` ceiling tolerance of the
source is kept literally).  Python's `int()` truncates toward zero and
`math.ceil` is the integer ceiling. -/

noncomputable section

open Real

/-- The latitude clamp `max(min(lat, 85.0511), -85.0511)` (line 24). -/
def clampLat (lat : ℝ) : ℝ := max (min lat 85.0511) (-85.0511)

/-- `math.radians`. -/
def radians (d : ℝ) : ℝ := d * π / 180

/-- The unrounded tile column `(lon + 180) / 360 * n` (line 27). -/
def xTileRaw (lon : ℝ) (n : ℕ) : ℝ := (lon + 180) / 360 * n

/-- The unrounded tile row
`(1 - log(tan(lat_rad) + 1/cos(lat_rad)) / π) / 2 * n` (lines 29-32). -/
def yTileRaw (lat : ℝ) (n : ℕ) : ℝ :=
  (1 - Real.log (Real.tan (radians lat) + 1 / Real.cos (radians lat)) / π) / 2 * n

/-- Python `int()`: truncation toward zero (lines 41-42). -/
def pyInt (r : ℝ) : ℤ := if 0 ≤ r then ⌊r⌋ else ⌈r⌉

/-- `math.ceil(t - 1e-10)` (lines 37-38). -/
def ceilTol (r : ℝ) : ℤ := ⌈r - 1e-10⌉

/-- The argument of the logarithm at latitude 85°. -/
def mercArg : ℝ := Real.tan (radians 85) + 1 / Real.cos (radians 85)

/-- `log(tan(85°) + sec(85°))`, the Mercator ordinate of latitude 85°
scaled by π. -/
def mercL : ℝ := Real.log mercArg

/-- `latlon_to_tile(lat, lon, zoom, is_tms, use_ceil)` (lines 11-48). -/
def latlon_to_tile (lat lon : ℝ) (zoom : ℕ) (isTms useCeil : Bool) : ℤ × ℤ :=
  let latc := clampLat lat
  let n : ℕ := 2 ^ zoom
  let xt : ℤ := if useCeil then ceilTol (xTileRaw lon n) else pyInt (xTileRaw lon n)
  let yt : ℤ := if useCeil then ceilTol (yTileRaw latc n) else pyInt (yTileRaw latc n)
  let yt2 : ℤ := if isTms then ((n : ℤ) - 1) - yt else yt
  (xt, yt2)

/-- Python's `range(a, b + 1)` over integers. -/
def intRange (a b : ℤ) : List ℤ :=
  (List.range (b + 1 - a).toNat).map (fun i => a + (i : ℤ))

/-- `calculate_tiles_in_bbox(west, south, east, north, zoom, is_tms)`
(lines 83-116): NW corner with `int()`, SE corner with the tolerant
ceiling, clamp both to `[0, n-1]`, swap if inverted, then the row-major
product. -/
def calculate_tiles_in_bbox (west south east north : ℝ) (zoom : ℕ)
    (isTms : Bool) : List (ℤ × ℤ) :=
  let n : ℕ := 2 ^ zoom
  let maxValidTile : ℤ := (n : ℤ) - 1
  let mn := latlon_to_tile north west zoom isTms false
  let mx := latlon_to_tile south east zoom isTms true
  let minX := max 0 mn.1
  let minY := max 0 mn.2
  let maxX := min maxValidTile mx.1
  let maxY := min maxValidTile mx.2
  let px := if minX > maxX then (maxX, minX) else (minX, maxX)
  let py := if minY > maxY then (maxY, minY) else (minY, maxY)
  (intRange px.1 px.2).bind (fun x => (intRange py.1 py.2).map (fun y => (x, y)))

theorem radians85 : radians 85 = π / 2 - π / 36 := by
  unfold radians; ring

theorem cos_radians85 : Real.cos (radians 85) = Real.sin (π / 36) := by
  rw [radians85, Real.cos_pi_div_two_sub]

theorem sin_radians85 : Real.sin (radians 85) = Real.cos (π / 36) := by
  rw [radians85, Real.sin_pi_div_two_sub]

theorem sin36_pos : 0 < Real.sin (π / 36) := by
  apply Real.sin_pos_of_pos_of_lt_pi
  · positivity
  · nlinarith [Real.pi_pos]

theorem sin36_ub : Real.sin (π / 36) ≤ π / 36 :=
  (Real.sin_lt (by positivity)).le

theorem sin36_lb : π / 36 - (π / 36) ^ 3 / 4 < Real.sin (π / 36) :=
  Real.sin_gt_sub_cube (by positivity) (by nlinarith [Real.pi_lt_four])

theorem cos36_lb : 1 - (π / 36) ^ 2 / 2 ≤ Real.cos (π / 36) :=
  Real.one_sub_sq_div_two_le_cos

theorem mercArg_eq : mercArg = (1 + Real.cos (π / 36)) / Real.sin (π / 36) := by
  unfold mercArg
  rw [Real.tan_eq_sin_div_cos, sin_radians85, cos_radians85]
  field_simp
  ring

theorem mercArg_lb : (22 : ℝ) ≤ mercArg := by
  rw [mercArg_eq, le_div_iff₀ sin36_pos]
  nlinarith [Real.pi_lt_d4, Real.pi_gt_three, sin36_ub, cos36_lb, Real.pi_pos]

theorem mercArg_ub : mercArg ≤ 23 := by
  rw [mercArg_eq, div_le_iff₀ sin36_pos]
  have hcube : (π / 36) ^ 3 ≤ (3.1416 / 36) ^ 3 :=
    pow_le_pow_left₀ (by positivity) (by linarith [Real.pi_lt_d4]) 3
  nlinarith [Real.pi_gt_d6, sin36_lb, Real.cos_le_one (π / 36)]

theorem mercArg_pos : 0 < mercArg := by linarith [mercArg_lb]

theorem exp_three_lt : Real.exp 3 < 20.086 := by
  have h1 : Real.exp 3 = Real.exp 1 ^ 3 := by
    rw [← Real.exp_nat_mul]
    norm_num
  rw [h1]
  have h2 : Real.exp 1 ^ 3 < 2.7182818286 ^ 3 :=
    pow_lt_pow_left₀ Real.exp_one_lt_d9 (Real.exp_pos 1).le (by norm_num)
  nlinarith

theorem exp_three_gt : (20.0855 : ℝ) < Real.exp 3 := by
  have h1 : Real.exp 3 = Real.exp 1 ^ 3 := by
    rw [← Real.exp_nat_mul]
    norm_num
  rw [h1]
  have h2 : (2.7182818283 : ℝ) ^ 3 < Real.exp 1 ^ 3 :=
    pow_lt_pow_left₀ Real.exp_one_gt_d9 (by norm_num) (by norm_num)
  nlinarith

theorem mercL_lb : (2.75 : ℝ) ≤ mercL := by
  have hexp : Real.exp 2.75 < 22 := by
    have hs : Real.exp 2.75 * Real.exp 0.25 = Real.exp 3 := by
      rw [← Real.exp_add]
      norm_num
    have h025 : (1.25 : ℝ) < Real.exp 0.25 := by
      have := Real.add_one_lt_exp (by norm_num : (0.25 : ℝ) ≠ 0)
      linarith
    have hpos : (0 : ℝ) < Real.exp 2.75 := Real.exp_pos _
    nlinarith [exp_three_lt]
  have h : (2.75 : ℝ) < mercL := by
    unfold mercL
    rw [Real.lt_log_iff_exp_lt mercArg_pos]
    linarith [mercArg_lb]
  linarith

theorem mercL_ub : mercL ≤ 3.2 := by
  have hexp : (23 : ℝ) < Real.exp 3.2 := by
    have hs : Real.exp 3 * Real.exp 0.2 = Real.exp 3.2 := by
      rw [← Real.exp_add]
      norm_num
    have h02 : (1.2 : ℝ) < Real.exp 0.2 := by
      have := Real.add_one_lt_exp (by norm_num : (0.2 : ℝ) ≠ 0)
      linarith
    have hpos : (0 : ℝ) < Real.exp 3 := Real.exp_pos _
    nlinarith [exp_three_gt]
  unfold mercL
  rw [Real.log_le_iff_le_exp mercArg_pos]
  linarith [mercArg_ub]

theorem y85_eq (n : ℕ) : yTileRaw 85 n = (1 - mercL / π) / 2 * n := rfl

theorem radians_neg85 : radians (-85) = -(radians 85) := by
  unfold radians; ring

theorem cos36_pos : 0 < Real.cos (π / 36) := by
  apply Real.cos_pos_of_mem_Ioo
  constructor
  · nlinarith [Real.pi_pos]
  · nlinarith [Real.pi_pos]

/-- `tan(-85°) + sec(-85°)` is the reciprocal of `tan(85°) + sec(85°)`. -/
theorem mercArg_neg : Real.tan (radians (-85)) + 1 / Real.cos (radians (-85))
    = mercArg⁻¹ := by
  rw [radians_neg85, Real.tan_neg, Real.cos_neg, Real.tan_eq_sin_div_cos,
    sin_radians85, cos_radians85, mercArg_eq, inv_div]
  have h1 : (0 : ℝ) < 1 + Real.cos (π / 36) := by nlinarith [cos36_pos]
  have h2 := sin36_pos
  field_simp
  nlinarith [Real.sin_sq_add_cos_sq (π / 36)]

theorem yneg85_eq (n : ℕ) : yTileRaw (-85) n = (1 + mercL / π) / 2 * n := by
  unfold yTileRaw mercL
  rw [mercArg_neg, Real.log_inv]
  ring

theorem mercQ_lb : 7 / 8 < mercL / π := by
  rw [lt_div_iff₀ Real.pi_pos]
  nlinarith [mercL_lb, Real.pi_lt_d6]

theorem mercQ_ub : mercL / π < 3 / 2 := by
  rw [div_lt_iff₀ Real.pi_pos]
  nlinarith [mercL_ub, Real.pi_gt_d6]

theorem y85_lt_one (n : ℕ) (hn : (n : ℝ) ≤ 16) : yTileRaw 85 n < 1 := by
  rw [y85_eq]
  have hd1 := mercQ_lb
  have hd2 := mercQ_ub
  have hn0 : (0 : ℝ) ≤ (n : ℝ) := Nat.cast_nonneg n
  rcases le_or_lt (mercL / π) 1 with hc | hc
  · nlinarith [mul_nonneg (by linarith : (0:ℝ) ≤ 16 - (n:ℝ))
      (by linarith : (0:ℝ) ≤ 1 - mercL / π)]
  · nlinarith [mul_nonneg hn0 (by linarith : (0:ℝ) ≤ mercL / π - 1)]

theorem ymin_pyInt_nonpos (n : ℕ) (hn : (n : ℝ) ≤ 16) :
    pyInt (yTileRaw 85 n) ≤ 0 := by
  have h := y85_lt_one n hn
  unfold pyInt
  split
  · have hf : ⌊yTileRaw 85 n⌋ < (1 : ℤ) := by
      rw [Int.floor_lt]
      exact_mod_cast h
    omega
  · next hneg =>
    rw [Int.ceil_le]
    push_cast
    linarith

theorem ymax_ceil_ge (n : ℕ) (h1 : 1 ≤ (n : ℝ)) (hn : (n : ℝ) ≤ 16) :
    (n : ℤ) - 1 ≤ ceilTol (yTileRaw (-85) n) := by
  have key : ((n : ℤ) - 2 : ℤ) < ceilTol (yTileRaw (-85) n) := by
    unfold ceilTol
    rw [Int.lt_ceil]
    rw [yneg85_eq]
    have hd1 := mercQ_lb
    have hn0 : (0 : ℝ) ≤ (n : ℝ) := Nat.cast_nonneg n
    push_cast
    nlinarith [mul_nonneg (by linarith : (0:ℝ) ≤ mercL / π - 7/8) hn0]
  omega

theorem pyInt_y85_4 : pyInt (yTileRaw 85 4) = 0 := by
  have h1 : yTileRaw 85 4 < 1 := y85_lt_one 4 (by norm_num)
  have h2 : -1 < yTileRaw 85 4 := by
    rw [y85_eq]
    have hd2 := mercQ_ub
    push_cast
    nlinarith
  unfold pyInt
  split
  · rw [Int.floor_eq_iff]
    constructor
    · push_cast
      linarith [ (by assumption : (0:ℝ) ≤ yTileRaw 85 4) ]
    · push_cast
      linarith
  · next hneg =>
    rw [Int.ceil_eq_iff]
    constructor
    · push_cast
      linarith
    · push_cast
      linarith [le_of_not_le hneg]

theorem pyInt_intCast (m : ℤ) : pyInt (m : ℝ) = m := by
  unfold pyInt
  split
  · exact Int.floor_intCast m
  · exact Int.ceil_intCast m

/-- An exact integer survives the `1e-10`-tolerant ceiling unchanged: a
bbox edge lying exactly on a tile boundary yields that boundary index. -/
theorem ceilTol_intCast (m : ℤ) : ceilTol (m : ℝ) = m := by
  unfold ceilTol
  rw [Int.ceil_eq_iff]
  constructor
  · norm_num
  · norm_num

/-- Evaluation of `calculate_tiles_in_bbox` once the four corner indices
are resolved. -/
theorem calculate_eval (west south east north : ℝ) (zoom : ℕ)
    (minX maxX minY maxY : ℤ)
    (hminX : max 0 (pyInt (xTileRaw west (2 ^ zoom))) = minX)
    (hmaxX : min ((2 ^ zoom : ℤ) - 1) (ceilTol (xTileRaw east (2 ^ zoom))) = maxX)
    (hminY : max 0 (pyInt (yTileRaw (clampLat north) (2 ^ zoom))) = minY)
    (hmaxY : min ((2 ^ zoom : ℤ) - 1) (ceilTol (yTileRaw (clampLat south) (2 ^ zoom))) = maxY)
    (hx : minX ≤ maxX) (hy : minY ≤ maxY) :
    calculate_tiles_in_bbox west south east north zoom false
      = (intRange minX maxX).bind (fun x => (intRange minY maxY).map (fun y => (x, y))) := by
  unfold calculate_tiles_in_bbox latlon_to_tile
  simp only [Bool.false_eq_true, reduceIte]
  push_cast
  rw [hminX, hmaxX, hminY, hmaxY]
  rw [if_neg (not_lt.mpr hx), if_neg (not_lt.mpr hy)]

theorem clampLat_85 : clampLat 85 = 85 := by
  unfold clampLat; norm_num

theorem clampLat_neg85 : clampLat (-85) = -85 := by
  unfold clampLat; norm_num

theorem clampLat_zero : clampLat 0 = 0 := by
  unfold clampLat; norm_num

theorem xRaw_west180 (n : ℕ) : xTileRaw (-180) n = ((0 : ℤ) : ℝ) := by
  unfold xTileRaw; norm_num

theorem xRaw_east180 (n : ℕ) : xTileRaw 180 n = (((n : ℤ)) : ℝ) := by
  unfold xTileRaw; push_cast; ring

theorem two_pow_le_16 (z : ℕ) (hz : z ≤ 4) : ((2 ^ z : ℕ) : ℝ) ≤ 16 := by
  have h : (2 : ℕ) ^ z ≤ 2 ^ 4 := Nat.pow_le_pow_right (by norm_num) hz
  have h2 : ((2 ^ z : ℕ) : ℝ) ≤ ((2 ^ 4 : ℕ) : ℝ) := by exact_mod_cast h
  calc ((2 ^ z : ℕ) : ℝ) ≤ ((2 ^ 4 : ℕ) : ℝ) := h2
    _ = 16 := by norm_num

theorem one_le_two_pow_real (z : ℕ) : (1 : ℝ) ≤ ((2 ^ z : ℕ) : ℝ) := by
  have h : 1 ≤ (2 : ℕ) ^ z := Nat.one_le_two_pow
  exact_mod_cast h

/-- The world bbox `(-180, -85, 180, 85)` resolves to the full
`[0, 2^z-1]²` grid for every zoom up to 4. -/
theorem full_bbox (z : ℕ) (hz : z ≤ 4) :
    calculate_tiles_in_bbox (-180) (-85) 180 85 z false
      = (intRange 0 ((2 ^ z : ℤ) - 1)).bind
          (fun x => (intRange 0 ((2 ^ z : ℤ) - 1)).map (fun y => (x, y))) := by
  have hnpos : (0 : ℤ) < 2 ^ z := pow_pos (by norm_num) z
  apply calculate_eval
  · rw [xRaw_west180, pyInt_intCast]
    omega
  · have he : xTileRaw 180 (2 ^ z) = (((2 ^ z : ℤ)) : ℝ) := by
      rw [xRaw_east180]; push_cast; ring
    rw [he, ceilTol_intCast]
    exact min_eq_left (by omega)
  · rw [clampLat_85]
    exact max_eq_left (ymin_pyInt_nonpos (2 ^ z) (two_pow_le_16 z hz))
  · rw [clampLat_neg85]
    have h := ymax_ceil_ge (2 ^ z) (one_le_two_pow_real z) (two_pow_le_16 z hz)
    refine min_eq_left ?_
    push_cast at h ⊢
    omega
  · omega
  · omega

/-- The south edge `lat = 0` lies exactly on the tile boundary `2` at
`z = 2`: `log(tan 0 + sec 0) = 0`. -/
theorem yRaw_clamp_zero : yTileRaw (clampLat 0) 4 = (((2 : ℤ)) : ℝ) := by
  rw [clampLat_zero]
  unfold yTileRaw radians
  norm_num [Real.tan_zero, Real.cos_zero, Real.log_one]

theorem pyInt_yRaw_clamp85 : pyInt (yTileRaw (clampLat 85) (2 ^ 2)) = 0 := by
  rw [clampLat_85]
  exact pyInt_y85_4

end

end TileHarvester

open TileHarvester in
/-- C5 (counterexample): a worker that observes the pause flag at the
start of a download attempt and is still paused after the 1-second grace
wait (lines 1125-1140) marks the in-flight tile `skipped` and returns,
without putting it back on the task queue — contradicting the claim that
a paused in-flight tile is always re-enqueued and never marked skipped as
a consequence of the pause alone. -/
theorem c5_counterexample_pause_grace_marks_skipped :
    processTask envPauseGrace ⟨1, 2, 3⟩ = [Action.mark "skipped"]
    ∧ Action.requeue ∉ processTask envPauseGrace ⟨1, 2, 3⟩ := by
  refine ⟨rfl, ?_⟩
  decide

open TileHarvester in
/-- C5 (amended): a dequeued task is never silently dropped — every
disposition of the worker either marks the tile (success, failed or
skipped) or has re-enqueued it; pauses observed at the post-dequeue
re-check, between body chunks or during retry backoff re-enqueue the
task, but a pause that persists past the 1-second grace at the start of a
retry attempt instead marks the tile skipped. -/
theorem c5_amended_task_never_dropped (env : WorkerEnv) (t : Tile) :
    (∃ st, Action.mark st ∈ processTask env t)
      ∨ Action.requeue ∈ processTask env t := by
  unfold processTask
  split
  · exact .inr (by simp)
  split
  · exact .inl ⟨"skipped", by simp⟩
  split
  · exact .inl ⟨"skipped", by simp⟩
  · exact runAttempts_mark_or_requeue env t env.retries 0

open TileHarvester in
/-- C6: against a server answering HTTP 404 for every URL, a completed
fresh run over duplicate-free tiles whose zooms lie in the provider range
ends with `downloaded = 0` and `failed = total_tasks`, and each tile's
URL is requested exactly once — a 403/404 response ends the retry loop
before any further attempt. -/
theorem c6_all_404_downloads_nothing (mz Mz : Nat) (tiles : List Tile)
    (hnd : tiles.Nodup) (hz : ∀ t ∈ tiles, mz ≤ t.z ∧ t.z ≤ Mz) :
    (runQueue (env404 mz Mz) (addTasksForBbox true (initState []) tiles)
        (addTasksForBbox true (initState []) tiles).taskQueue).downloadedCount = 0
    ∧ (runQueue (env404 mz Mz) (addTasksForBbox true (initState []) tiles)
        (addTasksForBbox true (initState []) tiles).taskQueue).failedCount
      = (runQueue (env404 mz Mz) (addTasksForBbox true (initState []) tiles)
        (addTasksForBbox true (initState []) tiles).taskQueue).totalTasks
    ∧ ∀ t ∈ tiles, (processTask (env404 mz Mz) t).count Action.httpGet = 1 := by
  rw [addTasksForBbox_fresh]
  have hrun := runQueue_env404 mz Mz tiles
    { processedTiles := [], downloadedCount := 0, failedCount := 0,
      skippedCount := 0, totalTasks := tiles.length, taskQueue := tiles }
    hnd (fun t ht => ⟨hz t ht, by simp⟩)
  refine ⟨?_, ?_, ?_⟩
  · exact hrun.2.1
  · rw [hrun.1, hrun.2.2.2]
    simp
  · intro t ht
    rw [processTask_env404 mz Mz t (hz t ht)]
    rfl

open TileHarvester in
/-- Witness for the C6 theorem: a two-tile run at zoom 1 against the
all-404 server. -/
theorem c6_all_404_downloads_nothing_witness :
    ([⟨0, 0, 1⟩, ⟨1, 0, 1⟩] : List Tile).Nodup
    ∧ (∀ t ∈ ([⟨0, 0, 1⟩, ⟨1, 0, 1⟩] : List Tile), 1 ≤ t.z ∧ t.z ≤ 19)
    ∧ ((runQueue (env404 1 19)
          (addTasksForBbox true (initState []) [⟨0, 0, 1⟩, ⟨1, 0, 1⟩])
          (addTasksForBbox true (initState []) [⟨0, 0, 1⟩, ⟨1, 0, 1⟩]).taskQueue).downloadedCount = 0
      ∧ (runQueue (env404 1 19)
          (addTasksForBbox true (initState []) [⟨0, 0, 1⟩, ⟨1, 0, 1⟩])
          (addTasksForBbox true (initState []) [⟨0, 0, 1⟩, ⟨1, 0, 1⟩]).taskQueue).failedCount
        = (runQueue (env404 1 19)
          (addTasksForBbox true (initState []) [⟨0, 0, 1⟩, ⟨1, 0, 1⟩])
          (addTasksForBbox true (initState []) [⟨0, 0, 1⟩, ⟨1, 0, 1⟩]).taskQueue).totalTasks
      ∧ ∀ t ∈ ([⟨0, 0, 1⟩, ⟨1, 0, 1⟩] : List Tile),
          (processTask (env404 1 19) t).count Action.httpGet = 1) :=
  ⟨by decide, by decide,
    c6_all_404_downloads_nothing 1 19 [⟨0, 0, 1⟩, ⟨1, 0, 1⟩] (by decide) (by decide)⟩

open TileHarvester in
/-- C2 (counterexample): the scheme metadata row is not the user's string
verbatim — `__init__` lowercases it (`self.scheme = scheme.lower()`), so
for the user scheme `"XYZ"` the stored metadata value is `"xyz"`. -/
theorem c2_counterexample_scheme_not_verbatim :
    (mbtilesMetadata "png" "XYZ").lookup "scheme" = some "xyz"
    ∧ ("xyz" : String) ≠ "XYZ" :=
  ⟨by decide, by decide⟩

open TileHarvester in
/-- C2 (amended): every row the worker writes to an MBTiles sink (single
file or zoom shard) is `(zoom_level, tile_column, tile_row) =
(z, x, 2^z - 1 - y)` — TMS orientation regardless of the scheme setting,
which the write path never consults — and the metadata `scheme` row
carries the user's scheme string lowercased (hence verbatim exactly for
already-lowercase inputs such as `"xyz"`). -/
theorem c2_amended_mbtiles_row_tms_scheme_lowercased
    (env : WorkerEnv) (t : Tile) (zl : Nat) (tc tr : Int) (d : List Nat)
    (ext scheme : String)
    (hmem : Action.sinkPut zl tc tr d ∈ processTask env t) :
    zl = t.z ∧ tc = t.x ∧ tr = (2 ^ t.z : Int) - 1 - t.y
    ∧ (mbtilesMetadata ext scheme).lookup "scheme" = some (pyLower scheme) := by
  have hrow : zl = t.z ∧ tc = t.x ∧ tr = (2 ^ t.z : Int) - 1 - t.y := by
    unfold processTask at hmem
    split at hmem
    · simp at hmem
    split at hmem
    · simp at hmem
    split at hmem
    · simp at hmem
    · exact sinkPut_mem_runAttempts env t zl tc tr d env.retries 0 hmem
  exact ⟨hrow.1, hrow.2.1, hrow.2.2, rfl⟩

open TileHarvester in
/-- Witness for the amended C2 theorem: a clean MBTiles download of tile
`(x, y, z) = (1, 2, 3)` stores row `(3, 1, 5)` with `5 = 2^3 - 1 - 2`. -/
theorem c2_amended_mbtiles_row_tms_scheme_lowercased_witness :
    Action.sinkPut 3 1 5 [7] ∈ processTask env200 ⟨1, 2, 3⟩
    ∧ ((3 : Nat) = (⟨1, 2, 3⟩ : Tile).z
      ∧ (1 : Int) = (⟨1, 2, 3⟩ : Tile).x
      ∧ (5 : Int) = (2 ^ (⟨1, 2, 3⟩ : Tile).z : Int) - 1 - (⟨1, 2, 3⟩ : Tile).y
      ∧ (mbtilesMetadata "png" "XYZ").lookup "scheme" = some (pyLower "XYZ")) :=
  ⟨by decide,
    c2_amended_mbtiles_row_tms_scheme_lowercased env200 ⟨1, 2, 3⟩ 3 1 5 [7]
      "png" "XYZ" (by decide)⟩

open TileHarvester in
/-- C1 (code bug): `_save_progress` persists every tile of the in-memory
`processed_tiles` set with the literal status `'success'`
(`tile_generator`, line 459), so a tile that was marked `failed` is
written to the ledger as `success`: after `mark((0,0,0), 'failed')` on a
fresh state the failed counter is 1 yet the persisted row for `(0,0,0)`
carries status `"success"`. -/
theorem c1_failed_tile_persisted_as_success :
    (markTileProcessed (initState []) ⟨0, 0, 0⟩ "failed").failedCount = 1
    ∧ ((0 : Int), (0 : Int), (0 : Nat), "success")
        ∈ saveProgressRows (markTileProcessed (initState []) ⟨0, 0, 0⟩ "failed") := by
  refine ⟨rfl, ?_⟩
  decide

open TileHarvester in
/-- C4 (code bug): once the in-memory `processed_tiles` set has reached
the `1000000`-entry cap, `_mark_tile_processed` no longer records the
tile anywhere, so marking the same fresh tile `'success'` twice
increments `downloaded_count` twice (2) instead of once (1) — marking is
not idempotent at the cap. -/
theorem c4_mark_success_not_idempotent_at_cap :
    (markTileProcessed (initState (List.replicate 1000000 ⟨0, 0, 0⟩))
        ⟨1, 1, 1⟩ "success").downloadedCount = 1
    ∧ (markTileProcessed
        (markTileProcessed (initState (List.replicate 1000000 ⟨0, 0, 0⟩))
          ⟨1, 1, 1⟩ "success")
        ⟨1, 1, 1⟩ "success").downloadedCount = 2 := by
  have hmem : (⟨1, 1, 1⟩ : Tile) ∉ List.replicate 1000000 (⟨0, 0, 0⟩ : Tile) := by
    rw [List.mem_replicate]
    rintro ⟨-, h⟩
    exact one_ne_zero (congrArg Tile.z h)
  have hlen : 1000000 ≤ (List.replicate 1000000 (⟨0, 0, 0⟩ : Tile)).length := by
    rw [List.length_replicate]
  have h1 : markTileProcessed (initState (List.replicate 1000000 ⟨0, 0, 0⟩))
        ⟨1, 1, 1⟩ "success"
      = bumpCounter (initState (List.replicate 1000000 ⟨0, 0, 0⟩)) "success" := by
    unfold markTileProcessed initState
    rw [if_pos hmem, if_pos hlen]
  have h2 : bumpCounter (initState (List.replicate 1000000 ⟨0, 0, 0⟩)) "success"
      = { initState (List.replicate 1000000 ⟨0, 0, 0⟩) with downloadedCount := 1 } := by
    unfold bumpCounter initState
    rw [if_pos rfl]
  rw [h1, h2]
  have h3 : markTileProcessed
        { initState (List.replicate 1000000 ⟨0, 0, 0⟩) with downloadedCount := 1 }
        ⟨1, 1, 1⟩ "success"
      = bumpCounter
        { initState (List.replicate 1000000 ⟨0, 0, 0⟩) with downloadedCount := 1 }
        "success" := by
    unfold markTileProcessed initState
    rw [if_pos hmem, if_pos hlen]
  rw [h3]
  unfold bumpCounter initState
  rw [if_pos rfl]
  exact ⟨rfl, rfl⟩

open TileHarvester in
/-- C3 (counterexample): on a resumed run the counters are initialised to
zero and `total_tasks` is only assigned after the enumeration loop, while
already-processed tiles increment `skipped_count` during the loop; so at
the observation point after the first enumerated tile of a resume run
whose ledger already contains that tile, `downloaded + failed + skipped =
1 > 0 = total_tasks`. -/
theorem c3_counterexample_mid_enumeration :
    ¬ (processedSum (enumStep true (initState [⟨0, 0, 0⟩]) ⟨0, 0, 0⟩)
        ≤ (enumStep true (initState [⟨0, 0, 0⟩]) ⟨0, 0, 0⟩).totalTasks) := by
  decide

open TileHarvester in
/-- C3 (amended): once `add_tasks_for_bbox` has completed (so
`total_tasks` has been assigned the enumeration count), and each enqueued
tile is marked at most once by the workers, the counters satisfy
`downloaded + failed + skipped ≤ total_tasks`. -/
theorem c3_amended_sum_le_total_after_enumeration
    (loaded tiles : List Tile) (marks : List (Tile × String))
    (hmem : ∀ p ∈ marks,
      p.1 ∈ (addTasksForBbox true (initState loaded) tiles).taskQueue)
    (hnd : (marks.map Prod.fst).Nodup) :
    processedSum (applyMarks (addTasksForBbox true (initState loaded) tiles) marks)
      ≤ (applyMarks (addTasksForBbox true (initState loaded) tiles) marks).totalTasks := by
  set s1 := addTasksForBbox true (initState loaded) tiles with hs1
  have henum := foldl_enumStep_sum true tiles (initState loaded)
  have hq : processedSum s1 + s1.taskQueue.length = tiles.length := by
    have h0 : processedSum (initState loaded) = 0 := rfl
    have h0q : (initState loaded).taskQueue.length = 0 := rfl
    have hsum : processedSum s1 = processedSum (tiles.foldl (enumStep true) (initState loaded)) := rfl
    have hqeq : s1.taskQueue = (tiles.foldl (enumStep true) (initState loaded)).taskQueue := rfl
    rw [hsum, hqeq]
    omega
  have htot : s1.totalTasks = tiles.length := rfl
  have hmarks := marks_length_le_queue marks s1.taskQueue hmem hnd
  have hfold := applyMarks_sum_le marks s1
  have htot2 := applyMarks_totalTasks marks s1
  omega

open TileHarvester in
/-- Witness for the amended C3 theorem: a concrete one-tile run. -/
theorem c3_amended_sum_le_total_after_enumeration_witness :
    (∀ p ∈ ([(⟨0, 0, 1⟩, "success")] : List (Tile × String)),
      p.1 ∈ (addTasksForBbox true (initState []) [⟨0, 0, 1⟩]).taskQueue)
    ∧ ([((⟨0, 0, 1⟩ : Tile), "success")].map Prod.fst).Nodup
    ∧ processedSum (applyMarks (addTasksForBbox true (initState []) [⟨0, 0, 1⟩])
          [(⟨0, 0, 1⟩, "success")])
        ≤ (applyMarks (addTasksForBbox true (initState []) [⟨0, 0, 1⟩])
          [(⟨0, 0, 1⟩, "success")]).totalTasks :=
  ⟨by decide, by decide,
    c3_amended_sum_le_total_after_enumeration [] [⟨0, 0, 1⟩]
      [(⟨0, 0, 1⟩, "success")] (by decide) (by decide)⟩

open TileHarvester in
/-- C10: every provider variant returns a tile URL and a tile path for all
coordinates, with no zoom-range rejection; the Custom provider leaves
unrecognised placeholders (and `{s}` when no subdomains are configured)
literal, and its TMS path flips `y` to `2^z - 1 - y`. -/
theorem c10_provider_url_path_total :
    (∀ x y zoom : Nat, (osmGetTileUrl x y zoom).isSome)
    ∧ (∀ x y zoom : Nat, (bingGetTileUrl x y zoom).isSome)
    ∧ (∀ (template : String) (subs : List String) (x y zoom : Nat),
        (customGetTileUrl template subs x y zoom).isSome)
    ∧ customGetTileUrl "https://a.example/{z}/{x}/{y}.png?k={key}&s={s}" [] 7 11 3
        = some "https://a.example/3/7/11.png?k={key}&s={s}"
    ∧ customGetTilePath true "png" 3 5 3 "out" = "out/3/3/2.png" :=
  ⟨osmGetTileUrl_isSome, bingGetTileUrl_isSome, customGetTileUrl_isSome, rfl, rfl⟩

/-- C9: `tile_to_quadkey(3, 5, 3) = "213"`, `tile_to_quadkey(0, 0, 1) = "0"`,
and `tile_to_quadkey(35210, 21493, 16)` has length 16 with first ten
characters `"1202102332"`. -/
theorem c9_quadkey_scenarios :
    TileHarvester.tile_to_quadkey 3 5 3 = "213"
    ∧ TileHarvester.tile_to_quadkey 0 0 1 = "0"
    ∧ (TileHarvester.tile_to_quadkey 35210 21493 16).length = 16
    ∧ (TileHarvester.tile_to_quadkey 35210 21493 16).take 10 = "1202102332" := by
  refine ⟨rfl, rfl, rfl, rfl⟩

set_option maxRecDepth 8000 in
open TileHarvester in
/-- C7: `calculate_tiles_in_bbox(-180, -85, 180, 85, 4)` is exactly the
row-major product `{0..15} × {0..15}` (256 tiles), and the counts for
zooms 0-4 are 1, 4, 16, 64, 256, summing to 341. -/
theorem c7_world_bbox_tiles :
    calculate_tiles_in_bbox (-180) (-85) 180 85 4 false
      = (intRange 0 15).bind (fun x => (intRange 0 15).map (fun y => (x, y)))
    ∧ (calculate_tiles_in_bbox (-180) (-85) 180 85 0 false).length = 1
    ∧ (calculate_tiles_in_bbox (-180) (-85) 180 85 1 false).length = 4
    ∧ (calculate_tiles_in_bbox (-180) (-85) 180 85 2 false).length = 16
    ∧ (calculate_tiles_in_bbox (-180) (-85) 180 85 3 false).length = 64
    ∧ (calculate_tiles_in_bbox (-180) (-85) 180 85 4 false).length = 256
    ∧ 1 + 4 + 16 + 64 + 256 = 341 := by
  refine ⟨?_, ?_, ?_, ?_, ?_, ?_, by norm_num⟩
  · rw [full_bbox 4 (by norm_num)]
    norm_num
  · rw [full_bbox 0 (by norm_num)]
    decide
  · rw [full_bbox 1 (by norm_num)]
    decide
  · rw [full_bbox 2 (by norm_num)]
    decide
  · rw [full_bbox 3 (by norm_num)]
    decide
  · rw [full_bbox 4 (by norm_num)]
    decide

open TileHarvester in
/-- C8 (counterexample): at `z = 2` the bbox `(-90, -85, 0, 85)` has its
east edge exactly on the tile boundary `x = 2` (`xTileRaw 0 4 = 2`), yet
`calculate_tiles_in_bbox` INCLUDES column 2 — the tile on the far (east)
side of that boundary — because `ceil(2 - 1e-10) = 2`; the claim says
that tile is excluded. -/
theorem c8_counterexample_far_side_included :
    ((2 : ℤ), (0 : ℤ)) ∈ calculate_tiles_in_bbox (-90) (-85) 0 85 2 false
    ∧ xTileRaw 0 (2 ^ 2) = ((2 : ℤ) : ℝ) := by
  have heval : calculate_tiles_in_bbox (-90) (-85) 0 85 2 false
      = (intRange 1 2).bind (fun x => (intRange 0 3).map (fun y => (x, y))) := by
    apply calculate_eval
    · have hx : xTileRaw (-90) (2 ^ 2) = ((1 : ℤ) : ℝ) := by
        unfold xTileRaw; push_cast; norm_num
      rw [hx, pyInt_intCast]
      decide
    · have hx : xTileRaw 0 (2 ^ 2) = ((2 : ℤ) : ℝ) := by
        unfold xTileRaw; push_cast; norm_num
      rw [hx, ceilTol_intCast]
      decide
    · rw [clampLat_85]
      have h := pyInt_y85_4
      rw [show ((2 ^ 2 : ℕ)) = 4 from rfl, h]
      decide
    · rw [clampLat_neg85]
      have h := ymax_ceil_ge (2 ^ 2) (one_le_two_pow_real 2) (two_pow_le_16 2 (by norm_num))
      refine min_eq_left ?_
      push_cast at h ⊢
      omega
    · decide
    · decide
  constructor
  · rw [heval]
    decide
  · unfold xTileRaw; push_cast; norm_num

open TileHarvester in
/-- C8 (amended): for a bbox whose west and east edges lie exactly on the
lon boundaries `j` and `k`, whose south edge lies exactly on the row
boundary `rs`, and whose north edge resolves (floor semantics) to row
`rn`, the enumeration is exactly `{j..k} × {rn..rs}`: the west/north
sides include the in-bbox boundary tile and exclude the far tile
(`int()` of an exact integer), while the east/south sides ALSO include
the far-side boundary tile (`ceil(m - 1e-10) = m`), rather than
excluding it. -/
theorem c8_amended_boundary_policy (z : ℕ) (j k rn rs : ℤ) (w e s no : ℝ)
    (hj : 0 ≤ j) (hjk : j ≤ k) (hk : k ≤ (2 ^ z : ℤ) - 1)
    (hrn : 0 ≤ rn) (hrnrs : rn ≤ rs) (hrs : rs ≤ (2 ^ z : ℤ) - 1)
    (hw : w = 360 * (j : ℝ) / ((2 : ℝ) ^ z) - 180)
    (he : e = 360 * (k : ℝ) / ((2 : ℝ) ^ z) - 180)
    (hsb : yTileRaw (clampLat s) (2 ^ z) = (rs : ℝ))
    (hnb : pyInt (yTileRaw (clampLat no) (2 ^ z)) = rn) :
    calculate_tiles_in_bbox w s e no z false
      = (intRange j k).bind (fun x => (intRange rn rs).map (fun y => (x, y))) := by
  apply calculate_eval
  · have hx : xTileRaw w (2 ^ z) = (j : ℝ) := by
      rw [hw]; unfold xTileRaw; push_cast; field_simp; ring
    rw [hx, pyInt_intCast]
    exact max_eq_right hj
  · have hx : xTileRaw e (2 ^ z) = (k : ℝ) := by
      rw [he]; unfold xTileRaw; push_cast; field_simp; ring
    rw [hx, ceilTol_intCast]
    exact min_eq_right hk
  · rw [hnb]
    exact max_eq_right hrn
  · rw [hsb, ceilTol_intCast]
    exact min_eq_right hrs
  · exact hjk
  · exact hrnrs

open TileHarvester in
/-- Witness for the amended C8 theorem: `z = 2`, west edge on boundary 1
(lon -90), east edge on boundary 2 (lon 0), south edge on row boundary 2
(lat 0), north at lat 85 (row 0): the tiles are `{1, 2} × {0, 1, 2}`,
including far-side column 2 and far-side row 2. -/
theorem c8_amended_boundary_policy_witness :
    (0 : ℤ) ≤ 1 ∧ (1 : ℤ) ≤ 2 ∧ (2 : ℤ) ≤ (2 ^ 2 : ℤ) - 1
    ∧ (0 : ℤ) ≤ 0 ∧ (0 : ℤ) ≤ 2 ∧ (2 : ℤ) ≤ (2 ^ 2 : ℤ) - 1
    ∧ (-90 : ℝ) = 360 * ((1 : ℤ) : ℝ) / ((2 : ℝ) ^ 2) - 180
    ∧ (0 : ℝ) = 360 * ((2 : ℤ) : ℝ) / ((2 : ℝ) ^ 2) - 180
    ∧ yTileRaw (clampLat 0) (2 ^ 2) = ((2 : ℤ) : ℝ)
    ∧ pyInt (yTileRaw (clampLat 85) (2 ^ 2)) = (0 : ℤ)
    ∧ calculate_tiles_in_bbox (-90) 0 0 85 2 false
        = (intRange 1 2).bind (fun x => (intRange 0 2).map (fun y => (x, y))) :=
  ⟨by decide, by decide, by decide, by decide, by decide, by decide,
    by norm_num, by norm_num,
    by rw [show ((2 ^ 2 : ℕ)) = 4 from rfl]; exact yRaw_clamp_zero,
    pyInt_yRaw_clamp85,
    c8_amended_boundary_policy 2 1 2 0 2 (-90) 0 0 85
      (by decide) (by decide) (by decide) (by decide) (by decide) (by decide)
      (by norm_num) (by norm_num)
      (by rw [show ((2 ^ 2 : ℕ)) = 4 from rfl]; exact yRaw_clamp_zero)
      pyInt_yRaw_clamp85⟩
